import Mathlib

/-!
Shallow embedding of the Game-of-Life implementation (grid.h, grid.cpp,
world.h, zoo.h, zoo.cpp) and proofs about the frozen behavioural claims.

Conventions of the embedding:
 * `Cell` is the two-valued cell state of grid.h:19-23.
 * Grid dimensions are `Nat`: the spec (§4.1) treats negative construction
   dimensions as a precondition violation, and every claim quantifies over
   non-negative dimensions.  Coordinates handed to the bounds-checked
   accessors stay `Int`, because several claims are about negative inputs.
 * A C++ function that can throw is modelled with `Option`/`Except`; for
   `Grid::merge`, which mutates before an exception can escape, the model
   returns the final state of the destination paired with the escaped error.
 * An out-of-bounds `std::vector` read is undefined behaviour in the source;
   the embedding models such reads as `Cell.DEAD` via `List.getD`.  No
   theorem below depends on the value chosen for such a read.
-/

/-- A Cell is a char limited to the two named values Cell::DEAD and
    Cell::ALIVE (grid.h:19-23). -/
inductive Cell
  | DEAD
  | ALIVE
deriving DecidableEq, BEq, Repr

/-- The Grid data (grid.h:30-33): width, height and the row-major 1D cell
    buffer. -/
structure Grid where
  width : Nat
  height : Nat
  cells : List Cell
deriving DecidableEq, Repr

/-- The buffer invariant of spec §3: the buffer length always equals
    width × height. -/
def Grid.Wf (g : Grid) : Prop := g.cells.length = g.width * g.height

instance (g : Grid) : Decidable g.Wf := by unfold Grid.Wf; infer_instance

/-- Grid::Grid(width, height) (grid.cpp:74): width*height cells, all DEAD. -/
def Grid.make (w h : Nat) : Grid := ⟨w, h, List.replicate (w * h) Cell.DEAD⟩

/-- Grid::get_width (grid.cpp:99-102). -/
def Grid.get_width (g : Grid) : Nat := g.width

/-- Grid::get_height (grid.cpp:127-130). -/
def Grid.get_height (g : Grid) : Nat := g.height

/-- Grid::get_total_cells (grid.cpp:155-158): width * height. -/
def Grid.get_total_cells (g : Grid) : Nat := g.width * g.height

/-- Grid::get_alive_cells (grid.cpp:183-196): scans cells[i] for
    i ∈ [0, get_total_cells). -/
def Grid.get_alive_cells (g : Grid) : Nat :=
  (List.range g.get_total_cells).countP (fun i => g.cells.getD i Cell.DEAD == Cell.ALIVE)

/-- Grid::get_dead_cells (grid.cpp:221-234). -/
def Grid.get_dead_cells (g : Grid) : Nat :=
  (List.range g.get_total_cells).countP (fun i => g.cells.getD i Cell.DEAD == Cell.DEAD)

/-- Grid::get_index (grid.cpp:380-383): x + y * width, on in-range
    coordinates. -/
def Grid.get_index (g : Grid) (x y : Nat) : Nat := x + y * g.width

/-- The raw buffer read cells[get_index(x, y)] performed by the checked
    accessorts after their bounds check, and by the internal loops whose
    indices are in range by construction. -/
def Grid.cellAt (g : Grid) (x y : Nat) : Cell := g.cells.getD (g.get_index x y) Cell.DEAD

/-- Grid::get (grid.cpp:413-424): bounds-checked read; `none` where the
    source throws std::out_of_range. -/
def Grid.get? (g : Grid) (x y : Int) : Option Cell :=
  if x ≥ (g.width : Int) ∨ x < 0 ∨ y ≥ (g.height : Int) ∨ y < 0 then none
  else some (g.cellAt x.toNat y.toNat)

/-- Grid::set (grid.cpp:452-465): bounds-checked write; `none` where the
    source throws std::out_of_range (in which case the grid is unchanged). -/
def Grid.set? (g : Grid) (x y : Int) (v : Cell) : Option Grid :=
  if x ≥ (g.width : Int) ∨ x < 0 ∨ y ≥ (g.height : Int) ∨ y < 0 then none
  else some ⟨g.width, g.height, g.cells.set (g.get_index x.toNat y.toNat) v⟩

/-- A grid whose w*h cells are filled row-major by f, the result of the
    source loops that assign new_grid(x, y) once for every coordinate of a
    freshly constructed grid. -/
def gridOfFn (w h : Nat) (f : Nat → Nat → Cell) : Grid :=
  ⟨w, h, ((List.range h).map (fun y => (List.range w).map (fun x => f x y))).flatten⟩

/-- std::vector::resize(n, Cell::DEAD): keeps the first n values on shrink,
    pads with DEAD on grow. -/
def vecResize (l : List Cell) (n : Nat) : List Cell :=
  if n ≤ l.length then l.take n else l ++ List.replicate (n - l.length) Cell.DEAD

/-- The both-dimensions-grow branch of Grid::resize (grid.cpp:287-307):
    scatters cells[i] to index i + (i / width) * (new_width - width) of a
    DEAD-filled buffer. -/
def Grid.growBothCells (g : Grid) (nw nh : Nat) : List Cell :=
  (List.range g.get_total_cells).foldl
    (fun acc i => acc.set (i + (i / g.width) * (nw - g.width)) (g.cells.getD i Cell.DEAD))
    (List.replicate (nw * nh) Cell.DEAD)

/-- Grid::resize(new_width, new_height) (grid.cpp:278-362), embedded with
    its branch structure intact, including the faulty column-growth branch
    that reads cells[i - y] (grid.cpp:331).  Out-of-bounds vector reads (UB
    in the source) are modelled as DEAD. -/
def Grid.resize (g : Grid) (nw nh : Nat) : Grid :=
  if nw = g.width ∧ nh = g.height then g
  else if g.get_total_cells = 0 then ⟨nw, nh, vecResize g.cells (nw * nh)⟩
  else if g.width < nw ∧ g.height < nh then ⟨nw, nh, g.growBothCells nw nh⟩
  else
    let cells1 := if nh ≠ g.height then vecResize g.cells (nw * nh) else g.cells
    let cells2 :=
      if g.width < nw then
        (List.range (nw * nh)).map (fun i => cells1.getD (i - i / nw) Cell.DEAD)
      else if nw < g.width then
        (List.range (nw * nh)).map
          (fun i => cells1.getD (i + (i / nw) * (g.width - nw)) Cell.DEAD)
      else cells1
    ⟨nw, nh, cells2⟩

/-- The error taxonomy of spec §7 (std::out_of_range, std::invalid_argument,
    std::runtime_error for malformed files, std::runtime_error for
    unopenable files). -/
inductive GolError
  | outOfRange
  | invalidSize
  | formatError
  | resourceError
deriving DecidableEq, Repr

deriving instance DecidableEq for Except

/-- Row-major coordinate enumeration (x, y) matching the source's nested
    loops: y outer, x inner. -/
def coordList (w h : Nat) : List (Nat × Nat) :=
  ((List.range h).map (fun y => (List.range w).map (fun x => (x, y)))).flatten

/-- The fill loop of Grid::crop (grid.cpp:605-611):
    new_grid.set(x, y, get(x + x0, y + y0)); a failing access aborts the
    whole call with std::out_of_range. -/
def Grid.cropLoop (g : Grid) (x0 y0 : Int) :
    List (Nat × Nat) → Grid → Except GolError Grid
  | [], acc => Except.ok acc
  | (x, y) :: rest, acc =>
      match g.get? ((x : Int) + x0) ((y : Int) + y0) with
      | none => Except.error GolError.outOfRange
      | some v =>
          match acc.set? (x : Int) (y : Int) v with
          | none => Except.error GolError.outOfRange
          | some acc2 => g.cropLoop x0 y0 rest acc2

/-- Grid::crop (grid.cpp:592-616).  The source constructs
    Grid(x1 - x0, y1 - y0), which for a negative extent is UB (spec §9,
    design note on inverted windows); the extent is clamped at 0 here.
    crop is const, so a failure leaves the source grid untouched. -/
def Grid.crop (g : Grid) (x0 y0 x1 y1 : Int) : Except GolError Grid :=
  if x0 ≥ (g.width : Int) ∨ x0 < 0 ∨ y0 ≥ (g.height : Int) ∨ y0 < 0 ∨ x1 < 0 ∨ y1 < 0 then
    Except.error GolError.outOfRange
  else
    g.cropLoop x0 y0 (coordList (x1 - x0).toNat (y1 - y0).toNat)
      (Grid.make (x1 - x0).toNat (y1 - y0).toNat)

/-- The body loop of Grid::merge (grid.cpp:663-683), threading the
    destination; the pair's second component is the exception that escaped,
    if any, and the first component is the destination state at that
    moment. -/
def Grid.mergeLoop (other : Grid) (x0 y0 : Int) (alive_only : Bool) :
    List (Nat × Nat) → Grid → Grid × Option GolError
  | [], g => (g, none)
  | (x, y) :: rest, g =>
      if alive_only then
        match g.get? ((x : Int) + x0) ((y : Int) + y0) with
        | none => (g, some GolError.outOfRange)
        | some c =>
            if c = Cell.DEAD then
              match other.get? (x : Int) (y : Int) with
              | none => (g, some GolError.outOfRange)
              | some v =>
                  match g.set? ((x : Int) + x0) ((y : Int) + y0) v with
                  | none => (g, some GolError.outOfRange)
                  | some g2 => Grid.mergeLoop other x0 y0 alive_only rest g2
            else Grid.mergeLoop other x0 y0 alive_only rest g
      else
        match other.get? (x : Int) (y : Int) with
        | none => (g, some GolError.outOfRange)
        | some v =>
            match g.set? ((x : Int) + x0) ((y : Int) + y0) v with
            | none => (g, some GolError.outOfRange)
            | some g2 => Grid.mergeLoop other x0 y0 alive_only rest g2

/-- Grid::merge (grid.cpp:655-685): the invalid-size guard, then the body
    loop over the other grid's coordinates. -/
def Grid.merge (g other : Grid) (x0 y0 : Int) (alive_only : Bool) :
    Grid × Option GolError :=
  if (g.width : Int) < x0 + (other.width : Int) ∨
      (g.height : Int) < y0 + (other.height : Int) then
    (g, some GolError.invalidSize)
  else Grid.mergeLoop other x0 y0 alive_only (coordList other.width other.height) g

/-- Grid::x_flip (grid.cpp:761-787): reverses the column order
    (new_grid(x, y) = old_grid(width - 1 - x, y)), returning the input
    unchanged when it has a single column. -/
def Grid.x_flip (old : Grid) : Grid :=
  if old.width = 1 then old
  else gridOfFn old.width old.height (fun x y => old.cellAt (old.width - 1 - x) y)

/-- Grid::y_flip (grid.cpp:801-827): reverses the row order
    (new_grid(x, y) = old_grid(x, height - 1 - y)), returning the input
    unchanged when it has a single row. -/
def Grid.y_flip (old : Grid) : Grid :=
  if old.height = 1 then old
  else gridOfFn old.width old.height (fun x y => old.cellAt x (old.height - 1 - y))

/-- Grid::swap_coordinates (grid.cpp:842-859): the diagonal swap
    new_grid(x, y) = old_grid(y, x) on inverted dimensions. -/
def Grid.swap_coordinates (old : Grid) : Grid :=
  gridOfFn old.height old.width (fun x y => old.cellAt y x)

/-- The normalisation of grid.cpp:711-718: C++ truncating % 4, then +4 if
    the remainder came out negative. -/
def rotNormalize (rot : Int) : Int :=
  if rot.tmod 4 < 0 then rot.tmod 4 + 4 else rot.tmod 4

/-- Grid::rotate (grid.cpp:709-747): normalise, then dispatch to the
    composed flip/transpose primitives (the rotation-0 branch returns the
    copy of the grid itself). -/
def Grid.rotate (g : Grid) (rot : Int) : Grid :=
  if rotNormalize rot = 1 then Grid.x_flip (Grid.swap_coordinates g)
  else if rotNormalize rot = 2 then Grid.x_flip (Grid.y_flip g)
  else if rotNormalize rot = 3 then Grid.y_flip (Grid.swap_coordinates g)
  else g

/-- World's population constants (world.h:24-25). -/
def UPPER_POPULATION_LIMIT : Nat := 3

/-- World's population constants (world.h:24-25). -/
def LOWER_POPULATION_LIMIT : Nat := 2

/-- The World data (world.h:27-28): the current and next generation grids. -/
structure World where
  current_state : Grid
  next_state : Grid
deriving DecidableEq, Repr

/-- The eight offsets to the surrounding positions of a coordinate. -/
def neighbourOffsets : List (Int × Int) :=
  [(-1, -1), (0, -1), (1, -1), (-1, 0), (1, 0), (-1, 1), (0, 1), (1, 1)]

/-- Modelled from the spec: world.cpp is not under src/ — only the
    declaration World::count_neighbours (world.h:30) is.  Spec §4.2 step():
    counts ALIVE cells among the 8 surrounding positions of (x, y) in
    current_state; in non-toroidal mode positions outside
    [0,width)×[0,height) simply do not contribute; in toroidal mode each
    out-of-bounds neighbour coordinate wraps modulo width/height. -/
def World.count_neighbours (wd : World) (x y : Int) (toroidal : Bool) : Nat :=
  neighbourOffsets.countP (fun p =>
    let nx := x + p.1
    let ny := y + p.2
    if toroidal then
      wd.current_state.cellAt (nx.emod (wd.current_state.width : Int)).toNat
          (ny.emod (wd.current_state.height : Int)).toNat == Cell.ALIVE
    else
      wd.current_state.get? nx ny == some Cell.ALIVE)

/-- Modelled from the spec: world.cpp is not under src/ — only the
    declaration World::step (world.h:48) is.  Spec §4.2: every coordinate of
    next_state is recomputed from the unmodified current_state — an ALIVE
    cell survives iff its neighbour count is within the LOWER/UPPER
    population limits inclusive, a DEAD cell becomes ALIVE iff the count
    equals the upper limit, everything else yields DEAD — and then the two
    buffers are swapped. -/
def World.step (wd : World) (toroidal : Bool) : World :=
  ⟨gridOfFn wd.current_state.width wd.current_state.height (fun x y =>
    if wd.current_state.cellAt x y = Cell.ALIVE then
      if LOWER_POPULATION_LIMIT ≤ wd.count_neighbours (x : Int) (y : Int) toroidal ∧
          wd.count_neighbours (x : Int) (y : Int) toroidal ≤ UPPER_POPULATION_LIMIT then
        Cell.ALIVE
      else Cell.DEAD
    else
      if wd.count_neighbours (x : Int) (y : Int) toroidal = UPPER_POPULATION_LIMIT then
        Cell.ALIVE
      else Cell.DEAD),
    wd.current_state⟩

namespace Zoo

/-- Decimal digit characters of n, most significant first, as operator<<
    renders a non-negative int. -/
def natDigits (n : Nat) : List Char :=
  if h : n < 10 then [Char.ofNat (48 + n)]
  else natDigits (n / 10) ++ [Char.ofNat (48 + n % 10)]
decreasing_by exact Nat.div_lt_self (by omega) (by omega)

/-- Zoo::save_ascii (zoo.cpp:247-274): the header line
    "width height\n", then height lines of width cell characters ('#' for
    ALIVE, ' ' for DEAD) each terminated by a newline.  The file is the
    produced character stream; opening the output file is environment
    behaviour outside the embedding. -/
def save_ascii (g : Grid) : List Char :=
  natDigits g.width ++ [' '] ++ natDigits g.height ++ ['\n'] ++
    ((List.range g.height).map (fun y =>
      (List.range g.width).map
          (fun x => if g.cellAt x y = Cell.ALIVE then '#' else ' ') ++ ['\n'])).flatten

/-- An input stream: the remaining characters and the fail state. -/
structure IStream where
  data : List Char
  failed : Bool
deriving DecidableEq, Repr

/-- istream::get(): one character, or none at end-of-file or on an already
    failed stream (the source compares the result against '#', ' ' and
    '\n', so EOF matches none of them). -/
def istGet (st : IStream) : Option Char × IStream :=
  if st.failed then (none, st)
  else
    match st.data with
    | [] => (none, ⟨[], true⟩)
    | c :: rest => (some c, ⟨rest, false⟩)

/-- Whitespace skipped by formatted int extraction. -/
def isWsChar (c : Char) : Bool := c = ' ' ∨ c = '\n' ∨ c = '\t' ∨ c = '\r'

/-- Drops leading whitespace. -/
def skipWs : List Char → List Char
  | [] => []
  | c :: rest => if isWsChar c then skipWs rest else c :: rest

/-- Accumulates a run of decimal digits left-to-right. -/
def readDigits : List Char → Nat → Nat × List Char
  | [], acc => (acc, [])
  | c :: rest, acc =>
      if c.isDigit then readDigits rest (acc * 10 + (c.toNat - 48)) else (acc, c :: rest)

/-- At least one digit, then the accumulated run. -/
def readDigitsOpt : List Char → Option (Nat × List Char)
  | [] => none
  | c :: rest => if c.isDigit then some (readDigits rest (c.toNat - 48)) else none

/-- operator>>(int): skip whitespace, then an optional minus sign and a
    digit run; on a parse failure the C++11 stream stores 0 and sets
    failbit, after which every further extraction fails. -/
def istReadInt (st : IStream) : Int × IStream :=
  if st.failed then (0, st)
  else
    match skipWs st.data with
    | [] => (0, ⟨[], true⟩)
    | c :: rest =>
        if c = '-' then
          match readDigitsOpt rest with
          | none => (0, ⟨c :: rest, true⟩)
          | some (n, r) => (-(n : Int), ⟨r, false⟩)
        else
          match readDigitsOpt (c :: rest) with
          | none => (0, ⟨c :: rest, true⟩)
          | some (n, r) => ((n : Int), ⟨r, false⟩)

/-- The inner cell loop of Zoo::load_ascii (zoo.cpp:187-204): width
    characters, '#' for ALIVE and ' ' for DEAD, anything else (including
    EOF) raising the format error. -/
def parseCells : Nat → IStream → Except GolError (List Cell × IStream)
  | 0, st => Except.ok ([], st)
  | n + 1, st =>
      let (c, st2) := istGet st
      if c = some '#' then
        (parseCells n st2).map (fun r => (Cell.ALIVE :: r.1, r.2))
      else if c = some ' ' then
        (parseCells n st2).map (fun r => (Cell.DEAD :: r.1, r.2))
      else Except.error GolError.formatError

/-- The row loop of Zoo::load_ascii (zoo.cpp:185-212): each row is width
    cell characters followed by a mandatory newline. -/
def parseRows (w : Nat) : Nat → IStream → Except GolError (List Cell × IStream)
  | 0, st => Except.ok ([], st)
  | n + 1, st =>
      match parseCells w st with
      | Except.error e => Except.error e
      | Except.ok (row, st2) =>
          let (c, st3) := istGet st2
          if c = some '\n' then
            (parseRows w n st3).map (fun r => (row ++ r.1, r.2))
          else Except.error GolError.formatError

/-- Zoo::load_ascii (zoo.cpp:154-217).  `none` models a file that cannot be
    opened; otherwise the argument is the file's character stream.  The
    successful result collects exactly the w*h row-major cell assignments
    made to the freshly constructed Grid(width, height). -/
def load_ascii : Option (List Char) → Except GolError Grid
  | none => Except.error GolError.resourceError
  | some s =>
      let (w, st1) := istReadInt ⟨s, false⟩
      let (h, st2) := istReadInt st1
      if w < 0 ∨ h < 0 then Except.error GolError.formatError
      else
        let (_, st3) := istGet st2
        (parseRows w.toNat h.toNat st3).map (fun r => (⟨w.toNat, h.toNat, r.1⟩ : Grid))

/-- Zoo::load_binary (zoo.cpp:297-357).  The stream is modelled as the two
    4-byte header integers (already assembled, as in.read does) plus the
    list of payload bytes; `none` models a file that cannot be opened.  The
    source computes read_size = (width*height)/8 with integer division and
    then requires read_size + 1 payload bytes to be available
    (zoo.cpp:322-332); bit c%8 (least significant first) of byte c/8 gives
    cell c = x + y*width. -/
def load_binary : Option (Int × Int × List Nat) → Except GolError Grid
  | none => Except.error GolError.resourceError
  | some (w, h, payload) =>
      if w < 0 ∨ h < 0 then Except.error GolError.formatError
      else
        let wn := w.toNat
        let hn := h.toNat
        let read_size := wn * hn / 8
        if payload.length < read_size + 1 then Except.error GolError.formatError
        else
          Except.ok (gridOfFn wn hn (fun x y =>
            let c := x + y * wn
            if (payload.getD (c / 8) 0).testBit (c % 8) then Cell.ALIVE else Cell.DEAD))

/-- Modelled from the spec: Zoo::save_binary is declared (zoo.h:30) and
    documented (zoo.cpp:359-386) but its definition is absent from src/
    (zoo.cpp ends right after the doc comment).  Spec §6 binary format:
    width, height, then ceil(width*height/8) payload bytes whose bit
    x + y*width (least-significant-bit-first within each byte) is 1 iff the
    cell is ALIVE, trailing bits zero padding. -/
def save_binary (g : Grid) : Int × Int × List Nat :=
  ((g.width : Int), (g.height : Int),
    (List.range ((g.width * g.height + 7) / 8)).map (fun b =>
      (List.range 8).foldl (fun acc j =>
        let c := b * 8 + j
        if c < g.width * g.height ∧ g.cellAt (c % g.width) (c / g.width) = Cell.ALIVE
        then acc + 2 ^ j else acc) 0))

end Zoo

/-! ### Claim-side definitions, written from the spec's and the claims'
    wording, to be compared with the embedded operations. -/

/-- The spec's vertical flip: the flip across the horizontal axis,
    reversing the row order (claim C5's definition of vertical flip). -/
def rowReverseFlip (g : Grid) : Grid :=
  gridOfFn g.width g.height (fun x y => g.cellAt x (g.height - 1 - y))

/-- The spec's horizontal flip: the flip across the vertical axis,
    reversing the column order. -/
def colReverseFlip (g : Grid) : Grid :=
  gridOfFn g.width g.height (fun x y => g.cellAt (g.width - 1 - x) y)

/-- A grid rotated by 90 degrees clockwise, cell for cell: the result is
    height×width and its cell (x, y) is the source cell (y, height-1-x). -/
def rot90cw (g : Grid) : Grid :=
  gridOfFn g.height g.width (fun x y => g.cellAt y (g.height - 1 - x))

/-- The next-generation value exactly as claim C1 words it: an ALIVE cell
    stays ALIVE iff its neighbour count is exactly 2 or 3, a DEAD cell
    becomes ALIVE iff the count is exactly 3, every other combination
    yields DEAD. -/
def lifeRule (c : Cell) (n : Nat) : Cell :=
  match c with
  | Cell.ALIVE => if n = 2 ∨ n = 3 then Cell.ALIVE else Cell.DEAD
  | Cell.DEAD => if n = 3 then Cell.ALIVE else Cell.DEAD

/-- The value claim C4 assigns to a destination cell inside the overlay
    region (u, v measured in destination coordinates). -/
def mergedCell (other : Grid) (x0 y0 : Nat) (ao : Bool) (g : Grid) (u v : Nat) : Cell :=
  if ao then
    if g.cellAt u v = Cell.DEAD then other.cellAt (u - x0) (v - y0) else g.cellAt u v
  else other.cellAt (u - x0) (v - y0)

/-- The grid states reachable through the public Grid interface: claim C9's
    "any sequence of constructions, resizes, sets, merges, crops and
    rotations" (a failed merge still leaves its destination state, so that
    state is included too). -/
inductive Reachable : Grid → Prop
  | construct (w h : Nat) : Reachable (Grid.make w h)
  | resize (g : Grid) (nw nh : Nat) : Reachable g → Reachable (g.resize nw nh)
  | set (g g' : Grid) (x y : Int) (v : Cell) :
      Reachable g → g.set? x y v = some g' → Reachable g'
  | merge (g other : Grid) (x0 y0 : Int) (ao : Bool) :
      Reachable g → Reachable ((g.merge other x0 y0 ao).1)
  | crop (g g' : Grid) (x0 y0 x1 y1 : Int) :
      Reachable g → g.crop x0 y0 x1 y1 = Except.ok g' → Reachable g'
  | rotate (g : Grid) (n : Int) : Reachable g → Reachable (g.rotate n)

/-- The 2×1 grid [ALIVE, DEAD] used as a concrete input by several
    witnesses and counterexamples. -/
def gridTwoOne : Grid := ⟨2, 1, [Cell.ALIVE, Cell.DEAD]⟩

/-- The 3×3 grid whose only ALIVE cell is the centre. -/
def centreGrid : Grid :=
  ⟨3, 3, [Cell.DEAD, Cell.DEAD, Cell.DEAD, Cell.DEAD, Cell.ALIVE, Cell.DEAD,
    Cell.DEAD, Cell.DEAD, Cell.DEAD]⟩

/-- A world holding the centre-only 3×3 generation. -/
def centreWorld : World := ⟨centreGrid, Grid.make 3 3⟩

/-! ### Basic lemmas about the embedding -/

/-- Reading a flattened list of length-w rows at index x + y * w is reading
    row y at x. -/
theorem getD_flatten_rows {α : Type} (rows : List (List α)) (w : Nat)
    (hw : ∀ r ∈ rows, r.length = w) (x y : Nat) (hx : x < w) (hy : y < rows.length)
    (d : α) : rows.flatten.getD (x + y * w) d = (rows.getD y []).getD x d := by
  induction rows generalizing y with
  | nil => cases hy
  | cons r rs ih =>
      have hr : r.length = w := hw r (by simp)
      cases y with
      | zero =>
          simp only [List.flatten_cons, Nat.zero_mul, Nat.add_zero, List.getD_cons_zero]
          rw [List.getD_eq_getElem?_getD, List.getElem?_append,
            if_pos (show x < r.length by omega), ← List.getD_eq_getElem?_getD]
      | succ y' =>
          have hy' : y' < rs.length := by simpa using hy
          have harith : x + (y' + 1) * w = r.length + (x + y' * w) := by
            rw [hr]; ring
          simp only [List.flatten_cons, List.getD_cons_succ]
          rw [List.getD_eq_getElem?_getD, harith, List.getElem?_append,
            if_neg (by omega)]
          simp only [Nat.add_sub_cancel_left, ← List.getD_eq_getElem?_getD]
          exact ih (fun r h => hw r (by simp [h])) y' hy'

/-- The cell grid built row-major from f reads back pointwise as f. -/
theorem Grid.cellAt_gridOfFn (w h : Nat) (f : Nat → Nat → Cell) (x y : Nat)
    (hx : x < w) (hy : y < h) : (gridOfFn w h f).cellAt x y = f x y := by
  unfold gridOfFn Grid.cellAt Grid.get_index
  simp only
  rw [getD_flatten_rows _ w ?_ x y hx (by simpa)]
  · have h1 : ((List.range h).map (fun y => (List.range w).map (fun x => f x y))).getD y [] =
        (List.range w).map (fun x => f x y) := by
      rw [List.getD_eq_getElem _ _ (by simpa)]
      simp [List.getElem_map]
    rw [h1, List.getD_eq_getElem _ _ (by simpa), List.getElem_map, List.getElem_range]
  · intro r hr
    obtain ⟨y', _, rfl⟩ := List.mem_map.mp hr
    simp

/-- gridOfFn satisfies the buffer invariant. -/
theorem Grid.wf_gridOfFn (w h : Nat) (f : Nat → Nat → Cell) : (gridOfFn w h f).Wf := by
  unfold gridOfFn Grid.Wf
  simp only [List.length_flatten, List.map_map]
  have h1 : (List.map (List.length ∘ fun y => (List.range w).map (fun x => f x y))
      (List.range h)) = List.replicate h w := by
    rw [show (List.length ∘ fun y => (List.range w).map (fun x => f x y)) =
      Function.const Nat w by funext y; simp [Function.const]]
    simp [List.map_const]
  rw [h1]
  simp [List.sum_replicate, Nat.mul_comm]

/-- Projections of gridOfFn. -/
theorem gridOfFn_width (w h : Nat) (f : Nat → Nat → Cell) : (gridOfFn w h f).width = w := rfl

/-- Projections of gridOfFn. -/
theorem gridOfFn_height (w h : Nat) (f : Nat → Nat → Cell) : (gridOfFn w h f).height = h :=
  rfl

/-- A well-formed grid is recovered by re-enumerating its own cells. -/
theorem Grid.gridOfFn_cellAt_self (g : Grid) (hwf : g.Wf) :
    gridOfFn g.width g.height (fun x y => g.cellAt x y) = g := by
  have hwf' : g.cells.length = g.width * g.height := hwf
  have hlen : (gridOfFn g.width g.height (fun x y => g.cellAt x y)).cells.length =
      g.width * g.height := Grid.wf_gridOfFn g.width g.height _
  have hcells : (gridOfFn g.width g.height (fun x y => g.cellAt x y)).cells = g.cells := by
    apply List.ext_getElem (by rw [hlen, hwf'])
    intro i h1 h2
    have hiwh : i < g.width * g.height := by
      have h1' := h1
      rw [hlen] at h1'
      exact h1'
    have hw0 : 0 < g.width := by
      rcases Nat.eq_zero_or_pos g.width with h0 | h0
      · rw [h0, Nat.zero_mul] at hiwh
        exact absurd hiwh (Nat.not_lt_zero i)
      · exact h0
    have hxw : i % g.width < g.width := Nat.mod_lt _ hw0
    have hyh : i / g.width < g.height := by
      rw [Nat.div_lt_iff_lt_mul hw0]
      rw [Nat.mul_comm] at hiwh
      exact hiwh
    have hi : i % g.width + (i / g.width) * g.width = i := by
      have h5 := Nat.mod_add_div i g.width
      have h6 : g.width * (i / g.width) = (i / g.width) * g.width := Nat.mul_comm _ _
      omega
    have hL : (gridOfFn g.width g.height (fun x y => g.cellAt x y)).cellAt
        (i % g.width) (i / g.width) = g.cellAt (i % g.width) (i / g.width) :=
      Grid.cellAt_gridOfFn g.width g.height _ _ _ hxw hyh
    have eL : (gridOfFn g.width g.height (fun x y => g.cellAt x y)).cells.getD i Cell.DEAD =
        (gridOfFn g.width g.height (fun x y => g.cellAt x y)).cellAt
          (i % g.width) (i / g.width) := by
      unfold Grid.cellAt Grid.get_index
      rw [gridOfFn_width, hi]
    have eR : g.cells.getD i Cell.DEAD = g.cellAt (i % g.width) (i / g.width) := by
      unfold Grid.cellAt Grid.get_index
      rw [hi]
    rw [← List.getD_eq_getElem _ Cell.DEAD h1, ← List.getD_eq_getElem _ Cell.DEAD h2]
    rw [eL, eR]
    exact hL
  calc gridOfFn g.width g.height (fun x y => g.cellAt x y)
      = ⟨g.width, g.height, (gridOfFn g.width g.height (fun x y => g.cellAt x y)).cells⟩ :=
        rfl
    _ = ⟨g.width, g.height, g.cells⟩ := by rw [hcells]
    _ = g := rfl

/-- The truncated C++ remainder of grid.cpp:712 is bounded by ±4. -/
theorem tmod_four_lb (n : Int) : -4 < n.tmod 4 := by
  cases n with
  | ofNat m =>
      have h : (0 : Int) ≤ (Int.ofNat m).tmod 4 := Int.tmod_nonneg 4 (Int.ofNat_nonneg m)
      omega
  | negSucc m =>
      have h : (Int.negSucc m).tmod 4 = -(((m : Int) + 1) % 4) := rfl
      have h2 : ((m : Int) + 1) % 4 < 4 := Int.emod_lt_of_pos _ (by norm_num)
      omega

/-- grid.cpp:711-718 computes exactly the mathematical (non-negative)
    residue modulo 4. -/
theorem rotNormalize_eq_emod (n : Int) : rotNormalize n = n % 4 := by
  have h1 := Int.tdiv_add_tmod n 4
  have h2 := tmod_four_lb n
  have h3 : n.tmod 4 < 4 := Int.tmod_lt_of_pos n (by norm_num)
  unfold rotNormalize
  split <;> omega

/-! ### Claim theorems (first group) -/

/-- C6: for every grid and every integer n, rotate(n) equals rotate at the
    mathematical non-negative residue of n modulo 4; in particular
    rotate(4) equals rotate(0), which is a cell-for-cell identical copy of
    the grid (same dimensions, same buffer). -/
theorem C6_rotate_normalizes (g : Grid) (n : Int) :
    g.rotate n = g.rotate (n % 4) ∧ g.rotate 4 = g.rotate 0 ∧ g.rotate 0 = g := by
  refine ⟨?_, ?_, ?_⟩
  · unfold Grid.rotate
    rw [rotNormalize_eq_emod n, rotNormalize_eq_emod (n % 4),
      Int.emod_emod_of_dvd n (dvd_refl 4)]
  · unfold Grid.rotate
    norm_num [rotNormalize_eq_emod]
  · unfold Grid.rotate
    norm_num [rotNormalize_eq_emod]

/-- C7: crop fails with the out-of-range condition whenever x0 or y0 lies
    outside the source grid's bounds (including x0 = width or y0 = height)
    or x1 or y1 is negative; the call returns no grid, and — crop being
    const on a value — the source grid is untouched. -/
theorem C7_crop_out_of_range (g : Grid) (x0 y0 x1 y1 : Int)
    (h : ¬ (0 ≤ x0 ∧ x0 < (g.width : Int)) ∨ ¬ (0 ≤ y0 ∧ y0 < (g.height : Int)) ∨
      x1 < 0 ∨ y1 < 0) :
    g.crop x0 y0 x1 y1 = Except.error GolError.outOfRange := by
  unfold Grid.crop
  rw [if_pos]
  omega

/-- Witness for C7 at the boundary case x0 = width on a 4×4 grid. -/
theorem C7_crop_out_of_range_witness :
    (Grid.make 4 4).crop 4 0 2 2 = Except.error GolError.outOfRange :=
  C7_crop_out_of_range (Grid.make 4 4) 4 0 2 2 (by decide)

/-- C2 is a code bug: resizing the 1×3 grid with only cell (0, 1) ALIVE to
    2×2 must, per the claim (and per grid.cpp's own doc comment,
    grid.cpp:261-262), keep the old overlap and DEAD-fill the new column,
    i.e. produce cells with (1, 0) and (1, 1) DEAD; the column-growth
    branch (grid.cpp:317-335) instead produces [DEAD, ALIVE, ALIVE, DEAD]:
    the newly introduced cell (1, 0) receives the old cell (0, 1) and is
    ALIVE.  No out-of-bounds vector read occurs on this input. -/
theorem C2_resize_bug :
    Grid.resize ⟨1, 3, [Cell.DEAD, Cell.ALIVE, Cell.DEAD]⟩ 2 2 =
      ⟨2, 2, [Cell.DEAD, Cell.ALIVE, Cell.ALIVE, Cell.DEAD]⟩ ∧
    (Grid.resize ⟨1, 3, [Cell.DEAD, Cell.ALIVE, Cell.DEAD]⟩ 2 2).get? 1 0 =
      some Cell.ALIVE := by
  constructor
  · decide
  · decide

/-- C3 is a code bug: a binary stream with width 8, height 1 and exactly
    ceil(8·1/8) = 1 payload byte is rejected by load_binary (which demands
    (8·1)/8 + 1 = 2 payload bytes, zoo.cpp:322-332), while the same stream
    with one spare byte parses to the all-DEAD 8×1 grid. -/
theorem C3_load_binary_bug :
    Zoo.load_binary (some (8, 1, [0])) = Except.error GolError.formatError ∧
    Zoo.load_binary (some (8, 1, [0, 0])) = Except.ok (Grid.make 8 1) := by
  constructor
  · decide
  · decide

/-- Pointwise equal generating functions give equal grids. -/
theorem gridOfFn_congr (w h : Nat) (f f2 : Nat → Nat → Cell)
    (hf : ∀ x y, x < w → y < h → f x y = f2 x y) : gridOfFn w h f = gridOfFn w h f2 := by
  unfold gridOfFn
  have hrows : ((List.range h).map fun y => (List.range w).map fun x => f x y) =
      ((List.range h).map fun y => (List.range w).map fun x => f2 x y) := by
    apply List.map_congr_left
    intro y hy
    apply List.map_congr_left
    intro x hx
    exact hf x y (List.mem_range.mp hx) (List.mem_range.mp hy)
  rw [hrows]

/-- On a well-formed grid, x_flip is exactly the column-order reversal
    (its width-1 early return included). -/
theorem Grid.x_flip_eq (old : Grid) (hwf : old.Wf) : old.x_flip = colReverseFlip old := by
  unfold Grid.x_flip colReverseFlip
  split
  case isTrue h1 =>
    have hcongr : gridOfFn old.width old.height
        (fun x y => old.cellAt (old.width - 1 - x) y) =
        gridOfFn old.width old.height (fun x y => old.cellAt x y) := by
      apply gridOfFn_congr
      intro x y hx _
      have hx0 : x = 0 := by omega
      subst hx0
      rw [h1]
    rw [hcongr, Grid.gridOfFn_cellAt_self old hwf]
  case isFalse h1 => rfl

/-- On a well-formed grid, y_flip is exactly the row-order reversal (its
    height-1 early return included). -/
theorem Grid.y_flip_eq (old : Grid) (hwf : old.Wf) : old.y_flip = rowReverseFlip old := by
  unfold Grid.y_flip rowReverseFlip
  split
  case isTrue h1 =>
    have hcongr : gridOfFn old.width old.height
        (fun x y => old.cellAt x (old.height - 1 - y)) =
        gridOfFn old.width old.height (fun x y => old.cellAt x y) := by
      apply gridOfFn_congr
      intro x y _ hy
      have hy0 : y = 0 := by omega
      subst hy0
      rw [h1]
    rw [hcongr, Grid.gridOfFn_cellAt_self old hwf]
  case isFalse h1 => rfl

/-- The dispatch of Grid::rotate at normalised rotation 1. -/
theorem Grid.rotate_one (g : Grid) : g.rotate 1 = Grid.x_flip (Grid.swap_coordinates g) := by
  have h : rotNormalize 1 = 1 := by decide
  unfold Grid.rotate
  rw [h]
  norm_num

/-- The dispatch of Grid::rotate at normalised rotation 2. -/
theorem Grid.rotate_two (g : Grid) : g.rotate 2 = Grid.x_flip (Grid.y_flip g) := by
  have h : rotNormalize 2 = 2 := by decide
  unfold Grid.rotate
  rw [h]
  norm_num

/-- The dispatch of Grid::rotate at normalised rotation 3. -/
theorem Grid.rotate_three (g : Grid) : g.rotate 3 = Grid.y_flip (Grid.swap_coordinates g) := by
  have h : rotNormalize 3 = 3 := by decide
  unfold Grid.rotate
  rw [h]
  norm_num

/-- C5 counterexample: on the 2×1 grid [ALIVE, DEAD], rotate(1) does not
    equal transpose followed by the spec's vertical flip (the row-order
    reversal), refuting the claim's stated composition for rotation 1. -/
theorem C5_counterexample :
    ¬ (Grid.rotate gridTwoOne 1 = rowReverseFlip (Grid.swap_coordinates gridTwoOne)) := by
  decide

/-- C5 amended: rotate(1) is the 90-degree-clockwise rotation, and equals
    transpose followed by the horizontal flip (column-order reversal) — not
    the vertical flip; rotation 2 equals vertical flip then horizontal
    flip; rotation 3 equals transpose followed by the vertical flip
    (row-order reversal) — not the horizontal flip. -/
theorem C5_rotate_composition (g : Grid) (hwf : g.Wf) :
    g.rotate 1 = rot90cw g ∧
    g.rotate 1 = colReverseFlip (Grid.swap_coordinates g) ∧
    g.rotate 2 = colReverseFlip (rowReverseFlip g) ∧
    g.rotate 3 = rowReverseFlip (Grid.swap_coordinates g) := by
  have hswap : (Grid.swap_coordinates g).Wf := Grid.wf_gridOfFn _ _ _
  have hrow : (rowReverseFlip g).Wf := Grid.wf_gridOfFn _ _ _
  have h2 : g.rotate 1 = colReverseFlip (Grid.swap_coordinates g) := by
    rw [Grid.rotate_one, Grid.x_flip_eq _ hswap]
  refine ⟨?_, h2, ?_, ?_⟩
  · rw [h2]
    unfold colReverseFlip rot90cw
    have hW : (Grid.swap_coordinates g).width = g.height := rfl
    have hH : (Grid.swap_coordinates g).height = g.width := rfl
    rw [hW, hH]
    apply gridOfFn_congr
    intro x y hx hy
    unfold Grid.swap_coordinates
    rw [Grid.cellAt_gridOfFn _ _ _ _ _ (by omega) hy]
  · rw [Grid.rotate_two, Grid.y_flip_eq _ hwf, Grid.x_flip_eq _ hrow]
  · rw [Grid.rotate_three, Grid.y_flip_eq _ hswap]

/-- Witness for C5_rotate_composition on a concrete well-formed grid. -/
theorem C5_rotate_composition_witness :
    gridTwoOne.rotate 1 = rot90cw gridTwoOne ∧
    gridTwoOne.rotate 1 = colReverseFlip (Grid.swap_coordinates gridTwoOne) ∧
    gridTwoOne.rotate 2 = colReverseFlip (rowReverseFlip gridTwoOne) ∧
    gridTwoOne.rotate 3 = rowReverseFlip (Grid.swap_coordinates gridTwoOne) :=
  C5_rotate_composition gridTwoOne (by decide)

/-- After a step, current_state holds the newly computed generation and
    next_state the previous one (the buffer swap). -/
theorem World.step_current (wd : World) (t : Bool) :
    (wd.step t).current_state = gridOfFn wd.current_state.width wd.current_state.height
      (fun x y =>
        if wd.current_state.cellAt x y = Cell.ALIVE then
          if LOWER_POPULATION_LIMIT ≤ wd.count_neighbours (x : Int) (y : Int) t ∧
              wd.count_neighbours (x : Int) (y : Int) t ≤ UPPER_POPULATION_LIMIT then
            Cell.ALIVE
          else Cell.DEAD
        else
          if wd.count_neighbours (x : Int) (y : Int) t = UPPER_POPULATION_LIMIT then
            Cell.ALIVE
          else Cell.DEAD) := rfl

/-- C1: a non-toroidal step computes, at every in-bounds coordinate, the
    standard Game-of-Life value of claim C1 from the unmodified current
    state (count_neighbours already drops positions outside the grid); in
    particular the 3×3 grid whose only ALIVE cell is the centre becomes
    all-DEAD after one non-toroidal step. -/
theorem C1_step_follows_life_rule :
    (∀ (wd : World) (x y : Nat), x < wd.current_state.width →
        y < wd.current_state.height →
        (wd.step false).current_state.cellAt x y =
          lifeRule (wd.current_state.cellAt x y)
            (wd.count_neighbours ((x : Nat) : Int) ((y : Nat) : Int) false)) ∧
    (centreWorld.step false).current_state = Grid.make 3 3 := by
  constructor
  · intro wd x y hx hy
    rw [World.step_current, Grid.cellAt_gridOfFn _ _ _ x y hx hy]
    unfold lifeRule LOWER_POPULATION_LIMIT UPPER_POPULATION_LIMIT
    cases hcell : wd.current_state.cellAt x y
    case DEAD => simp
    case ALIVE =>
      rw [if_pos rfl]
      split_ifs with h1 h2 <;> first | rfl | (exfalso; omega)
  · decide

/-- Witness for the universally quantified part of C1 on a concrete world. -/
theorem C1_step_witness :
    (centreWorld.step false).current_state.cellAt 1 1 =
      lifeRule (centreWorld.current_state.cellAt 1 1)
        (centreWorld.count_neighbours ((1 : Nat) : Int) ((1 : Nat) : Int) false) :=
  C1_step_follows_life_rule.1 centreWorld 1 1 (by decide) (by decide)

/-- Membership in the row-major coordinate enumeration is exactly
    in-bounds-ness. -/
theorem mem_coordList (w h : Nat) (p : Nat × Nat) :
    p ∈ coordList w h ↔ p.1 < w ∧ p.2 < h := by
  unfold coordList
  rw [List.mem_flatten]
  constructor
  · rintro ⟨row, hrow, hp⟩
    obtain ⟨y, hy, rfl⟩ := List.mem_map.mp hrow
    obtain ⟨x, hx, rfl⟩ := List.mem_map.mp hp
    exact ⟨List.mem_range.mp hx, List.mem_range.mp hy⟩
  · rintro ⟨h1, h2⟩
    refine ⟨(List.range w).map (fun x => (x, p.2)), ?_, ?_⟩
    · exact List.mem_map.mpr ⟨p.2, List.mem_range.mpr h2, rfl⟩
    · exact List.mem_map.mpr ⟨p.1, List.mem_range.mpr h1, rfl⟩

/-- The coordinate enumeration lists every coordinate once. -/
theorem coordList_nodup (w h : Nat) : (coordList w h).Nodup := by
  unfold coordList
  rw [List.nodup_flatten]
  constructor
  · intro l hl
    obtain ⟨y, _, rfl⟩ := List.mem_map.mp hl
    exact (List.nodup_range w).map (fun a b hab => congrArg Prod.fst hab)
  · rw [List.pairwise_map]
    apply List.Pairwise.imp ?_ (List.pairwise_lt_range h)
    intro a b hab
    intro q hq1 hq2
    obtain ⟨x1, _, rfl⟩ := List.mem_map.mp hq1
    obtain ⟨x2, _, he⟩ := List.mem_map.mp hq2
    have : b = a := congrArg Prod.snd he
    omega

/-- When both dimensions are positive the enumeration starts at (0, 0). -/
theorem coordList_succ_head (w h : Nat) : ∃ t, coordList (w + 1) (h + 1) = (0, 0) :: t := by
  unfold coordList
  rw [List.range_succ_eq_map h, List.range_succ_eq_map w]
  simp only [List.map_cons, List.flatten_cons, List.cons_append]
  exact ⟨_, rfl⟩

/-- Row-major linear indices of in-bounds coordinates are injective. -/
theorem rowMajor_inj (W u1 v1 u2 v2 : Nat) (h1 : u1 < W) (h2 : u2 < W)
    (he : u1 + v1 * W = u2 + v2 * W) : u1 = u2 ∧ v1 = v2 := by
  have hW : 0 < W := by omega
  have d1 : (u1 + v1 * W) / W = v1 := by
    rw [Nat.add_mul_div_right _ _ hW, Nat.div_eq_of_lt h1]
    omega
  have d2 : (u2 + v2 * W) / W = v2 := by
    rw [Nat.add_mul_div_right _ _ hW, Nat.div_eq_of_lt h2]
    omega
  have hv : v1 = v2 := by rw [← d1, ← d2, he]
  subst hv
  omega

/-- getD after set at the written index. -/
theorem getD_set_eq (l : List Cell) (i : Nat) (v d : Cell) (h : i < l.length) :
    (l.set i v).getD i d = v := by
  rw [List.getD_eq_getElem?_getD, List.getElem?_set_self h]
  rfl

/-- getD after set at any other index. -/
theorem getD_set_ne (l : List Cell) (i j : Nat) (v d : Cell) (h : i ≠ j) :
    (l.set i v).getD j d = l.getD j d := by
  rw [List.getD_eq_getElem?_getD, List.getElem?_set_ne h, ← List.getD_eq_getElem?_getD]

/-- cellAt of an explicitly built grid. -/
theorem Grid.cellAt_mk (W H : Nat) (cells : List Cell) (u v : Nat) :
    (⟨W, H, cells⟩ : Grid).cellAt u v = cells.getD (u + v * W) Cell.DEAD := rfl

/-- The bounds-checked read succeeds at in-bounds Nat coordinates. -/
theorem Grid.get?_coe (g : Grid) (x y : Nat) (hx : x < g.width) (hy : y < g.height) :
    g.get? (x : Int) (y : Int) = some (g.cellAt x y) := by
  unfold Grid.get?
  rw [if_neg (by omega)]
  rw [Int.toNat_natCast, Int.toNat_natCast]

/-- The bounds-checked write succeeds at in-bounds Nat coordinates. -/
theorem Grid.set?_coe (g : Grid) (x y : Nat) (v : Cell) (hx : x < g.width)
    (hy : y < g.height) :
    g.set? (x : Int) (y : Int) v =
      some ⟨g.width, g.height, g.cells.set (x + y * g.width) v⟩ := by
  unfold Grid.set?
  rw [if_neg (by omega)]
  rw [Int.toNat_natCast, Int.toNat_natCast]
  rfl

/-- The write of the merge loop, with its x + x0 argument order. -/
theorem Grid.set?_addNat (g : Grid) (a x0 b y0 : Nat) (v : Cell)
    (hx : x0 + a < g.width) (hy : y0 + b < g.height) :
    g.set? ((a : Int) + (x0 : Int)) ((b : Int) + (y0 : Int)) v =
      some ⟨g.width, g.height, g.cells.set ((x0 + a) + (y0 + b) * g.width) v⟩ := by
  have e1 : ((a : Int) + (x0 : Int)) = ((x0 + a : Nat) : Int) := by push_cast; ring
  have e2 : ((b : Int) + (y0 : Int)) = ((y0 + b : Nat) : Int) := by push_cast; ring
  rw [e1, e2]
  exact Grid.set?_coe g (x0 + a) (y0 + b) v hx hy

/-- The destination read of the merge loop, with its x + x0 argument
    order. -/
theorem Grid.get?_addNat (g : Grid) (a x0 b y0 : Nat)
    (hx : x0 + a < g.width) (hy : y0 + b < g.height) :
    g.get? ((a : Int) + (x0 : Int)) ((b : Int) + (y0 : Int)) =
      some (g.cellAt (x0 + a) (y0 + b)) := by
  have e1 : ((a : Int) + (x0 : Int)) = ((x0 + a : Nat) : Int) := by push_cast; ring
  have e2 : ((b : Int) + (y0 : Int)) = ((y0 + b : Nat) : Int) := by push_cast; ring
  rw [e1, e2]
  exact Grid.get?_coe g (x0 + a) (y0 + b) hx hy

/-- C10: a merge whose placement origin is negative but which passes the
    invalid-size guard fails on its very first cell access with the
    out-of-range condition (not the invalid-size one), leaving the
    destination grid completely unchanged. -/
theorem C10_merge_negative_origin (g other : Grid) (x0 y0 : Int) (ao : Bool)
    (hneg : x0 < 0 ∨ y0 < 0) (how : 0 < other.width) (hoh : 0 < other.height)
    (hfw : x0 + (other.width : Int) ≤ (g.width : Int))
    (hfh : y0 + (other.height : Int) ≤ (g.height : Int)) :
    g.merge other x0 y0 ao = (g, some GolError.outOfRange) := by
  unfold Grid.merge
  rw [if_neg (by omega)]
  obtain ⟨w', hw'⟩ : ∃ w', other.width = w' + 1 := ⟨other.width - 1, by omega⟩
  obtain ⟨h', hh'⟩ : ∃ h', other.height = h' + 1 := ⟨other.height - 1, by omega⟩
  rw [hw', hh']
  obtain ⟨t, ht⟩ := coordList_succ_head w' h'
  rw [ht]
  cases ao with
  | true =>
      have hget : g.get? x0 y0 = none := by
        unfold Grid.get?
        rw [if_pos (by omega)]
      simp [Grid.mergeLoop, hget]
  | false =>
      have hg : other.get? 0 0 = some (other.cellAt 0 0) := by
        simpa using Grid.get?_coe other 0 0 (by omega) (by omega)
      have hset : ∀ v, g.set? x0 y0 v = none := by
        intro v
        unfold Grid.set?
        rw [if_pos (by omega)]
      simp [Grid.mergeLoop, hg, hset]

/-- Witness for C10 at a concrete negative placement. -/
theorem C10_merge_negative_origin_witness :
    (Grid.make 4 4).merge (Grid.make 2 2) (-1) 0 true =
      (Grid.make 4 4, some GolError.outOfRange) :=
  C10_merge_negative_origin (Grid.make 4 4) (Grid.make 2 2) (-1) 0 true
    (Or.inl (by norm_num)) (by decide) (by decide) (by decide) (by decide)

/-- The merge body loop on a duplicate-free in-bounds coordinate list:
    it never throws, it writes the claim's value at every listed target,
    and it leaves every other cell alone. -/
theorem Grid.mergeLoop_spec (other : Grid) (x0 y0 : Nat) (ao : Bool)
    (L : List (Nat × Nat)) :
    ∀ g : Grid,
      (∀ p ∈ L, p.1 < other.width ∧ p.2 < other.height) → L.Nodup →
      x0 + other.width ≤ g.width → y0 + other.height ≤ g.height →
      g.cells.length = g.width * g.height →
      ∃ g2, Grid.mergeLoop other (x0 : Int) (y0 : Int) ao L g = (g2, none) ∧
        g2.width = g.width ∧ g2.height = g.height ∧
        g2.cells.length = g.cells.length ∧
        (∀ p ∈ L, g2.cellAt (x0 + p.1) (y0 + p.2) =
          mergedCell other x0 y0 ao g (x0 + p.1) (y0 + p.2)) ∧
        (∀ u v : Nat, u < g.width →
          (∀ p ∈ L, ¬ (x0 + p.1 = u ∧ y0 + p.2 = v)) →
          g2.cellAt u v = g.cellAt u v) := by
  induction L with
  | nil =>
      intro g hL hnd hfw hfh hlen
      exact ⟨g, rfl, rfl, rfl, rfl, by simp, fun u v _ _ => rfl⟩
  | cons q rest ih =>
      intro g hL hnd hfw hfh hlen
      obtain ⟨a, b⟩ := q
      have ha : a < other.width := (hL (a, b) (by simp)).1
      have hb : b < other.height := (hL (a, b) (by simp)).2
      have hxa : x0 + a < g.width := by omega
      have hyb : y0 + b < g.height := by omega
      have hidx : (x0 + a) + (y0 + b) * g.width < g.cells.length := by
        rw [hlen]
        calc (x0 + a) + (y0 + b) * g.width
            < g.width + (y0 + b) * g.width := by omega
          _ = ((y0 + b) + 1) * g.width := by ring
          _ ≤ g.height * g.width := Nat.mul_le_mul_right _ (by omega)
          _ = g.width * g.height := Nat.mul_comm _ _
      have hnotin : (a, b) ∉ rest := (List.nodup_cons.mp hnd).1
      have hndrest : rest.Nodup := (List.nodup_cons.mp hnd).2
      have hLrest : ∀ p ∈ rest, p.1 < other.width ∧ p.2 < other.height :=
        fun p hp => hL p (by simp [hp])
      have key : ∃ gn, Grid.mergeLoop other ↑x0 ↑y0 ao ((a, b) :: rest) g =
          Grid.mergeLoop other ↑x0 ↑y0 ao rest gn ∧
          gn.width = g.width ∧ gn.height = g.height ∧
          gn.cells.length = g.cells.length ∧
          gn.cellAt (x0 + a) (y0 + b) = mergedCell other x0 y0 ao g (x0 + a) (y0 + b) ∧
          (∀ u v : Nat, u < g.width → ¬ (x0 + a = u ∧ y0 + b = v) →
            gn.cellAt u v = g.cellAt u v) := by
        cases ao with
        | false =>
            refine ⟨⟨g.width, g.height,
              g.cells.set ((x0 + a) + (y0 + b) * g.width) (other.cellAt a b)⟩,
              ?_, rfl, rfl, by simp [List.length_set], ?_, ?_⟩
            · simp [Grid.mergeLoop, Grid.get?_coe other a b ha hb,
                Grid.set?_addNat g a x0 b y0 (other.cellAt a b) hxa hyb]
            · rw [Grid.cellAt_mk, getD_set_eq _ _ _ _ hidx]
              unfold mergedCell
              simp only [Bool.false_eq_true, if_false]
              rw [Nat.add_sub_cancel_left, Nat.add_sub_cancel_left]
            · intro u v hu hne
              rw [Grid.cellAt_mk, getD_set_ne, ← Grid.cellAt_mk g.width g.height]
              intro he
              exact hne ⟨(rowMajor_inj g.width _ _ _ _ hxa hu he).1,
                (rowMajor_inj g.width _ _ _ _ hxa hu he).2⟩
        | true =>
            by_cases hdead : g.cellAt (x0 + a) (y0 + b) = Cell.DEAD
            · refine ⟨⟨g.width, g.height,
                g.cells.set ((x0 + a) + (y0 + b) * g.width) (other.cellAt a b)⟩,
                ?_, rfl, rfl, by simp [List.length_set], ?_, ?_⟩
              · simp [Grid.mergeLoop, Grid.get?_addNat g a x0 b y0 hxa hyb, hdead,
                  Grid.get?_coe other a b ha hb,
                  Grid.set?_addNat g a x0 b y0 (other.cellAt a b) hxa hyb]
              · rw [Grid.cellAt_mk, getD_set_eq _ _ _ _ hidx]
                unfold mergedCell
                rw [if_pos rfl, if_pos hdead, Nat.add_sub_cancel_left,
                  Nat.add_sub_cancel_left]
              · intro u v hu hne
                rw [Grid.cellAt_mk, getD_set_ne, ← Grid.cellAt_mk g.width g.height]
                intro he
                exact hne ⟨(rowMajor_inj g.width _ _ _ _ hxa hu he).1,
                  (rowMajor_inj g.width _ _ _ _ hxa hu he).2⟩
            · refine ⟨g, ?_, rfl, rfl, rfl, ?_, fun u v _ _ => rfl⟩
              · simp [Grid.mergeLoop, Grid.get?_addNat g a x0 b y0 hxa hyb, hdead]
              · unfold mergedCell
                rw [if_pos rfl, if_neg hdead]
      obtain ⟨gn, hstep, hgnw, hgnh, hgnl, hgncell, hgnother⟩ := key
      obtain ⟨g2, hloop, hw2, hh2, hl2, htouched, huntouched⟩ :=
        ih gn hLrest hndrest (by omega) (by omega)
          (by rw [hgnl, hgnw, hgnh]; exact hlen)
      refine ⟨g2, by rw [hstep]; exact hloop, by rw [hw2, hgnw], by rw [hh2, hgnh],
        by rw [hl2, hgnl], ?_, ?_⟩
      · intro p hp
        rcases List.mem_cons.mp hp with heq | hpr
        · subst heq
          have hunt : ∀ p' ∈ rest, ¬ (x0 + p'.1 = x0 + a ∧ y0 + p'.2 = y0 + b) := by
            rintro p' hp' ⟨e1, e2⟩
            have hp'' : p' = (a, b) := by
              obtain ⟨c, d⟩ := p'
              simp only at e1 e2
              have hc : c = a := by omega
              have hd : d = b := by omega
              rw [hc, hd]
            rw [hp''] at hp'
            exact hnotin hp'
          rw [huntouched (x0 + a) (y0 + b) (hgnw ▸ hxa) hunt]
          exact hgncell
        · rw [htouched p hpr]
          have hp1 : x0 + p.1 < g.width := by
            have := (hLrest p hpr).1
            omega
          have hne : ¬ (x0 + a = x0 + p.1 ∧ y0 + b = y0 + p.2) := by
            rintro ⟨e1, e2⟩
            have hp'' : p = (a, b) := by
              obtain ⟨c, d⟩ := p
              simp only at e1 e2
              have hc : c = a := by omega
              have hd : d = b := by omega
              rw [hc, hd]
            rw [hp''] at hpr
            exact hnotin hpr
          have hcell : gn.cellAt (x0 + p.1) (y0 + p.2) = g.cellAt (x0 + p.1) (y0 + p.2) :=
            hgnother _ _ hp1 hne
          unfold mergedCell
          rw [hcell]
      · intro u v hu hnot
        have h1 : ∀ p ∈ rest, ¬ (x0 + p.1 = u ∧ y0 + p.2 = v) :=
          fun p hp => hnot p (by simp [hp])
        rw [huntouched u v (hgnw ▸ hu) h1]
        exact hgnother u v hu (hnot (a, b) (by simp))

/-- C4: for every well-formed destination, every source grid and every
    in-bounds placement, merge succeeds; with alive_only = false every
    destination cell of the overlay region is overwritten with the
    corresponding source cell (DEAD overwriting ALIVE included), with
    alive_only = true an ALIVE destination cell is never changed and a DEAD
    one takes the corresponding source value (so it becomes ALIVE exactly
    when that source cell is ALIVE); every cell outside the overlay region
    is unchanged in both modes. -/
theorem C4_merge_spec (g other : Grid) (x0 y0 : Nat) (ao : Bool) (hwf : g.Wf)
    (hfw : x0 + other.width ≤ g.width) (hfh : y0 + other.height ≤ g.height) :
    (g.merge other (x0 : Int) (y0 : Int) ao).2 = none ∧
    (g.merge other (x0 : Int) (y0 : Int) ao).1.width = g.width ∧
    (g.merge other (x0 : Int) (y0 : Int) ao).1.height = g.height ∧
    ∀ u v : Nat, u < g.width → v < g.height →
      (g.merge other (x0 : Int) (y0 : Int) ao).1.cellAt u v =
        if x0 ≤ u ∧ u < x0 + other.width ∧ y0 ≤ v ∧ v < y0 + other.height then
          (if ao then
            (if g.cellAt u v = Cell.ALIVE then Cell.ALIVE
             else other.cellAt (u - x0) (v - y0))
           else other.cellAt (u - x0) (v - y0))
        else g.cellAt u v := by
  obtain ⟨g2, hloop, hw2, hh2, _, htouched, huntouched⟩ :=
    Grid.mergeLoop_spec other x0 y0 ao (coordList other.width other.height) g
      (fun p hp => (mem_coordList _ _ p).mp hp) (coordList_nodup _ _) hfw hfh hwf
  have hmerge : g.merge other (x0 : Int) (y0 : Int) ao = (g2, none) := by
    unfold Grid.merge
    rw [if_neg (by omega)]
    exact hloop
  rw [hmerge]
  refine ⟨rfl, hw2, hh2, ?_⟩
  intro u v hu hv
  by_cases hreg : x0 ≤ u ∧ u < x0 + other.width ∧ y0 ≤ v ∧ v < y0 + other.height
  · rw [if_pos hreg]
    have hp : (u - x0, v - y0) ∈ coordList other.width other.height := by
      rw [mem_coordList]
      constructor
      · simp only
        omega
      · simp only
        omega
    have hval := htouched (u - x0, v - y0) hp
    simp only at hval
    rw [show x0 + (u - x0) = u by omega, show y0 + (v - y0) = v by omega] at hval
    rw [hval]
    unfold mergedCell
    cases ao with
    | false => simp
    | true =>
        cases hc : g.cellAt u v with
        | DEAD => simp [hc]
        | ALIVE => simp [hc]
  · rw [if_neg hreg]
    apply huntouched u v hu
    intro p hp hcontra
    obtain ⟨hp1, hp2⟩ := (mem_coordList _ _ p).mp hp
    obtain ⟨e1, e2⟩ := hcontra
    exact hreg ⟨by omega, by omega, by omega, by omega⟩

/-- Witness for C4 at a concrete in-bounds merge. -/
theorem C4_merge_spec_witness :
    (centreGrid.merge gridTwoOne ((1 : Nat) : Int) ((1 : Nat) : Int) true).2 = none ∧
    (centreGrid.merge gridTwoOne ((1 : Nat) : Int) ((1 : Nat) : Int) true).1.width =
      centreGrid.width ∧
    (centreGrid.merge gridTwoOne ((1 : Nat) : Int) ((1 : Nat) : Int) true).1.height =
      centreGrid.height ∧
    ∀ u v : Nat, u < centreGrid.width → v < centreGrid.height →
      (centreGrid.merge gridTwoOne ((1 : Nat) : Int) ((1 : Nat) : Int) true).1.cellAt u v =
        if 1 ≤ u ∧ u < 1 + gridTwoOne.width ∧ 1 ≤ v ∧ v < 1 + gridTwoOne.height then
          (if true then
            (if centreGrid.cellAt u v = Cell.ALIVE then Cell.ALIVE
             else gridTwoOne.cellAt (u - 1) (v - 1))
           else gridTwoOne.cellAt (u - 1) (v - 1))
        else centreGrid.cellAt u v :=
  C4_merge_spec centreGrid gridTwoOne 1 1 true (by decide) (by decide) (by decide)

/-- Construction satisfies the buffer invariant. -/
theorem Grid.make_wf (w h : Nat) : (Grid.make w h).Wf := by
  unfold Grid.make Grid.Wf
  simp

/-- vector::resize always leaves exactly n elements. -/
theorem vecResize_length (l : List Cell) (n : Nat) : (vecResize l n).length = n := by
  unfold vecResize
  split
  · simp
    omega
  · simp
    omega

/-- A fold of element writes never changes the buffer length. -/
theorem foldl_set_length (k : Nat → Nat) (v : Nat → Cell) (idxs : List Nat) :
    ∀ acc : List Cell,
      (idxs.foldl (fun a i => a.set (k i) (v i)) acc).length = acc.length := by
  induction idxs with
  | nil => intro acc; rfl
  | cons i rest ih =>
      intro acc
      simp only [List.foldl_cons]
      rw [ih]
      simp

/-- The scatter loop of the both-grow branch preserves the target length. -/
theorem Grid.growBothCells_length (g : Grid) (nw nh : Nat) :
    (g.growBothCells nw nh).length = nw * nh := by
  unfold Grid.growBothCells
  refine (foldl_set_length (fun i => i + i / g.width * (nw - g.width))
    (fun i => g.cells.getD i Cell.DEAD) _ _).trans ?_
  simp

/-- resize always restores the buffer invariant for the new dimensions. -/
theorem Grid.resize_wf (g : Grid) (nw nh : Nat) (hwf : g.Wf) : (g.resize nw nh).Wf := by
  unfold Grid.resize
  split
  case isTrue h => exact hwf
  case isFalse h =>
    split
    case isTrue h0 =>
      unfold Grid.Wf
      simp [vecResize_length]
    case isFalse h0 =>
      split
      case isTrue h1 =>
        unfold Grid.Wf
        simp [Grid.growBothCells_length]
      case isFalse h1 =>
        unfold Grid.Wf
        simp only
        split
        · simp
        · split
          · simp
          · -- nw = g.width here; the big else requires nh ≠ g.height
            have hww : nw = g.width := by omega
            split
            case isTrue h2 => simp [vecResize_length]
            case isFalse h2 =>
              exfalso
              exact h ⟨hww, by omega⟩

/-- A successful set preserves the buffer invariant. -/
theorem Grid.set?_wf (g g' : Grid) (x y : Int) (v : Cell)
    (h : g.set? x y v = some g') (hwf : g.Wf) : g'.Wf := by
  unfold Grid.set? at h
  split at h
  · cases h
  · injection h with h
    rw [← h]
    unfold Grid.Wf
    simpa using hwf

/-- Every state the merge body loop can leave behind satisfies the buffer
    invariant. -/
theorem Grid.mergeLoop_wf (other : Grid) (x0 y0 : Int) (ao : Bool)
    (L : List (Nat × Nat)) :
    ∀ g : Grid, g.Wf → (Grid.mergeLoop other x0 y0 ao L g).1.Wf := by
  induction L with
  | nil =>
      intro g hwf
      exact hwf
  | cons q rest ih =>
      intro g hwf
      obtain ⟨x, y⟩ := q
      cases ao with
      | true =>
          cases hg : g.get? ((x : Int) + x0) ((y : Int) + y0) with
          | none =>
              have heq : Grid.mergeLoop other x0 y0 true ((x, y) :: rest) g =
                  (g, some GolError.outOfRange) := by
                simp [Grid.mergeLoop, hg]
              rw [heq]
              exact hwf
          | some c =>
              by_cases hc : c = Cell.DEAD
              · cases ho : other.get? (x : Int) (y : Int) with
                | none =>
                    have heq : Grid.mergeLoop other x0 y0 true ((x, y) :: rest) g =
                        (g, some GolError.outOfRange) := by
                      simp [Grid.mergeLoop, hg, hc, ho]
                    rw [heq]
                    exact hwf
                | some v =>
                    cases hs : g.set? ((x : Int) + x0) ((y : Int) + y0) v with
                    | none =>
                        have heq : Grid.mergeLoop other x0 y0 true ((x, y) :: rest) g =
                            (g, some GolError.outOfRange) := by
                          simp [Grid.mergeLoop, hg, hc, ho, hs]
                        rw [heq]
                        exact hwf
                    | some g2 =>
                        have heq : Grid.mergeLoop other x0 y0 true ((x, y) :: rest) g =
                            Grid.mergeLoop other x0 y0 true rest g2 := by
                          simp [Grid.mergeLoop, hg, hc, ho, hs]
                        rw [heq]
                        exact ih g2 (Grid.set?_wf g g2 _ _ _ hs hwf)
              · have heq : Grid.mergeLoop other x0 y0 true ((x, y) :: rest) g =
                    Grid.mergeLoop other x0 y0 true rest g := by
                  simp [Grid.mergeLoop, hg, hc]
                rw [heq]
                exact ih g hwf
      | false =>
          cases ho : other.get? (x : Int) (y : Int) with
          | none =>
              have heq : Grid.mergeLoop other x0 y0 false ((x, y) :: rest) g =
                  (g, some GolError.outOfRange) := by
                simp [Grid.mergeLoop, ho]
              rw [heq]
              exact hwf
          | some v =>
              cases hs : g.set? ((x : Int) + x0) ((y : Int) + y0) v with
              | none =>
                  have heq : Grid.mergeLoop other x0 y0 false ((x, y) :: rest) g =
                      (g, some GolError.outOfRange) := by
                    simp [Grid.mergeLoop, ho, hs]
                  rw [heq]
                  exact hwf
              | some g2 =>
                  have heq : Grid.mergeLoop other x0 y0 false ((x, y) :: rest) g =
                      Grid.mergeLoop other x0 y0 false rest g2 := by
                    simp [Grid.mergeLoop, ho, hs]
                  rw [heq]
                  exact ih g2 (Grid.set?_wf g g2 _ _ _ hs hwf)

/-- A successful crop returns a grid satisfying the buffer invariant. -/
theorem Grid.cropLoop_wf (g : Grid) (x0 y0 : Int) (L : List (Nat × Nat)) :
    ∀ (acc g' : Grid), acc.Wf → g.cropLoop x0 y0 L acc = Except.ok g' → g'.Wf := by
  induction L with
  | nil =>
      intro acc g' hwf h
      unfold Grid.cropLoop at h
      injection h with h
      rw [← h]
      exact hwf
  | cons q rest ih =>
      intro acc g' hwf h
      obtain ⟨x, y⟩ := q
      cases hg : g.get? ((x : Int) + x0) ((y : Int) + y0) with
      | none => simp [Grid.cropLoop, hg] at h
      | some v =>
          cases hs : acc.set? (x : Int) (y : Int) v with
          | none => simp [Grid.cropLoop, hg, hs] at h
          | some acc2 =>
              have heq : g.cropLoop x0 y0 ((x, y) :: rest) acc =
                  g.cropLoop x0 y0 rest acc2 := by
                simp [Grid.cropLoop, hg, hs]
              rw [heq] at h
              exact ih acc2 g' (Grid.set?_wf acc acc2 _ _ _ hs hwf) h

/-- Both flips and the diagonal swap preserve the buffer invariant. -/
theorem Grid.x_flip_wf (g : Grid) (hwf : g.Wf) : g.x_flip.Wf := by
  unfold Grid.x_flip
  split
  · exact hwf
  · exact Grid.wf_gridOfFn _ _ _

/-- Both flips and the diagonal swap preserve the buffer invariant. -/
theorem Grid.y_flip_wf (g : Grid) (hwf : g.Wf) : g.y_flip.Wf := by
  unfold Grid.y_flip
  split
  · exact hwf
  · exact Grid.wf_gridOfFn _ _ _

/-- rotate preserves the buffer invariant. -/
theorem Grid.rotate_wf (g : Grid) (n : Int) (hwf : g.Wf) : (g.rotate n).Wf := by
  unfold Grid.rotate
  split
  · exact Grid.x_flip_wf _ (Grid.wf_gridOfFn _ _ _)
  · split
    · exact Grid.x_flip_wf _ (Grid.y_flip_wf _ hwf)
    · split
      · exact Grid.y_flip_wf _ (Grid.wf_gridOfFn _ _ _)
      · exact hwf

/-- Every grid reachable through the public interface satisfies the spec §3
    buffer invariant, so the counting scans of get_alive_cells and
    get_dead_cells only ever read inside the buffer. -/
theorem Reachable.wf (g : Grid) (h : Reachable g) : g.Wf := by
  induction h with
  | construct w h => exact Grid.make_wf w h
  | resize g nw nh _ ih => exact Grid.resize_wf g nw nh ih
  | set g g' x y v _ hs ih => exact Grid.set?_wf g g' x y v hs ih
  | merge g other x0 y0 ao _ ih =>
      unfold Grid.merge
      split
      · exact ih
      · exact Grid.mergeLoop_wf other x0 y0 ao _ g ih
  | crop g g' x0 y0 x1 y1 _ hc ih =>
      unfold Grid.crop at hc
      split at hc
      · cases hc
      · exact Grid.cropLoop_wf g x0 y0 _ _ g' (Grid.make_wf _ _) hc
  | rotate g n _ ih => exact Grid.rotate_wf g n ih

/-- C9: in every reachable grid state, the alive and dead counters sum to
    the total cell count. -/
theorem C9_alive_dead_total (g : Grid) (_h : Reachable g) :
    g.get_alive_cells + g.get_dead_cells = g.get_total_cells := by
  unfold Grid.get_alive_cells Grid.get_dead_cells
  have hsplit := List.length_eq_countP_add_countP
    (fun i => g.cells.getD i Cell.DEAD == Cell.ALIVE) (List.range g.get_total_cells)
  rw [List.length_range] at hsplit
  have hpred : (List.range g.get_total_cells).countP
      (fun i => g.cells.getD i Cell.DEAD == Cell.DEAD) =
      (List.range g.get_total_cells).countP
        (fun i => decide ¬ ((g.cells.getD i Cell.DEAD == Cell.ALIVE) = true)) := by
    apply List.countP_congr
    intro i _
    cases g.cells.getD i Cell.DEAD <;> decide
  rw [hpred]
  omega

/-- Witness for C9 on a concretely reachable grid. -/
theorem C9_alive_dead_total_witness :
    (Grid.make 3 2).get_alive_cells + (Grid.make 3 2).get_dead_cells =
      (Grid.make 3 2).get_total_cells :=
  C9_alive_dead_total (Grid.make 3 2) (Reachable.construct 3 2)

/-- The rendered digit characters really are digit characters. -/
theorem digitChar_isDigit (n : Nat) (h : n < 10) : (Char.ofNat (48 + n)).isDigit = true := by
  interval_cases n <;> decide

/-- Reading a rendered digit character back gives the digit. -/
theorem digitChar_toNat (n : Nat) (h : n < 10) : (Char.ofNat (48 + n)).toNat - 48 = n := by
  interval_cases n <;> decide

/-- natDigits produces at least one character. -/
theorem natDigits_ne_nil (n : Nat) : Zoo.natDigits n ≠ [] := by
  rw [Zoo.natDigits]
  split
  · simp
  · simp

/-- Every character natDigits produces is a digit. -/
theorem natDigits_isDigit (n : Nat) : ∀ c ∈ Zoo.natDigits n, c.isDigit = true := by
  induction n using Nat.strong_induction_on with
  | _ n ih =>
      rw [Zoo.natDigits]
      split
      case isTrue h =>
        intro c hc
        rw [List.mem_singleton] at hc
        rw [hc]
        exact digitChar_isDigit n h
      case isFalse h =>
        intro c hc
        rw [List.mem_append] at hc
        rcases hc with hc | hc
        · exact ih (n / 10) (Nat.div_lt_self (by omega) (by omega)) c hc
        · rw [List.mem_singleton] at hc
          rw [hc]
          exact digitChar_isDigit (n % 10) (Nat.mod_lt _ (by omega))

/-- One step of the digit-run reader. -/
theorem readDigits_cons (c : Char) (l : List Char) (acc : Nat) :
    Zoo.readDigits (c :: l) acc =
      if c.isDigit = true then Zoo.readDigits l (acc * 10 + (c.toNat - 48))
      else (acc, c :: l) := rfl

/-- A digit run stops at a non-digit (or the end of the stream). -/
theorem readDigits_stop (rest : List Char) (acc : Nat)
    (h : ∀ c, rest.head? = some c → c.isDigit = false) :
    Zoo.readDigits rest acc = (acc, rest) := by
  cases rest with
  | nil => rfl
  | cons c tail =>
      rw [readDigits_cons, h c rfl]
      simp

/-- Accumulating the digits of n after an existing accumulator: the run
    scales the accumulator by 10^(digit count) and adds n. -/
theorem readDigits_natDigits (n : Nat) :
    ∀ (rest : List Char) (acc : Nat),
      Zoo.readDigits (Zoo.natDigits n ++ rest) acc =
        Zoo.readDigits rest (acc * 10 ^ (Zoo.natDigits n).length + n) := by
  induction n using Nat.strong_induction_on with
  | _ n ih =>
      intro rest acc
      rw [Zoo.natDigits]
      split
      case isTrue h =>
        rw [List.singleton_append, readDigits_cons, if_pos (digitChar_isDigit n h),
          digitChar_toNat n h]
        norm_num
      case isFalse h =>
        rw [List.append_assoc, List.singleton_append,
          ih (n / 10) (Nat.div_lt_self (by omega) (by omega))]
        have hm : n % 10 < 10 := Nat.mod_lt _ (by omega)
        rw [readDigits_cons, if_pos (digitChar_isDigit _ hm), digitChar_toNat _ hm]
        have hlen : (Zoo.natDigits (n / 10) ++ [Char.ofNat (48 + n % 10)]).length =
            (Zoo.natDigits (n / 10)).length + 1 := by simp
        rw [hlen]
        have harith : (acc * 10 ^ (Zoo.natDigits (n / 10)).length + n / 10) * 10 + n % 10 =
            acc * 10 ^ ((Zoo.natDigits (n / 10)).length + 1) + n := by
          rw [Nat.pow_succ]
          have hdm := Nat.div_add_mod n 10
          ring_nf
          omega
        rw [harith]

/-- A digit character is not whitespace. -/
theorem isDigit_not_ws (c : Char) (h : c.isDigit = true) : Zoo.isWsChar c = false := by
  have hne : ¬ (c = ' ' ∨ c = '\n' ∨ c = '\t' ∨ c = '\r') := by
    rintro (hc | hc | hc | hc) <;> (rw [hc] at h; exact absurd h (by decide))
  unfold Zoo.isWsChar
  exact decide_eq_false hne

/-- A digit character is not the minus sign. -/
theorem isDigit_ne_minus (c : Char) (h : c.isDigit = true) : c ≠ '-' := by
  intro hc
  rw [hc] at h
  exact absurd h (by decide)

/-- skipWs does nothing on a stream starting with a non-whitespace
    character. -/
theorem skipWs_not_ws (c : Char) (l : List Char) (h : Zoo.isWsChar c = false) :
    Zoo.skipWs (c :: l) = c :: l := by
  unfold Zoo.skipWs
  rw [h]
  simp

/-- Formatted extraction of a rendered non-negative integer from the head
    of a stream, leaving the rest (whose first character is not a digit)
    untouched. -/
theorem istReadInt_natDigits (n : Nat) (rest : List Char)
    (hrest : ∀ c, rest.head? = some c → c.isDigit = false) :
    Zoo.istReadInt ⟨Zoo.natDigits n ++ rest, false⟩ = ((n : Int), ⟨rest, false⟩) := by
  obtain ⟨d, ds, hds⟩ : ∃ d ds, Zoo.natDigits n = d :: ds := by
    cases hnd : Zoo.natDigits n with
    | nil => exact absurd hnd (natDigits_ne_nil n)
    | cons d ds => exact ⟨d, ds, rfl⟩
  have hd : d.isDigit = true := natDigits_isDigit n d (by rw [hds]; simp)
  have hrun : Zoo.readDigits (ds ++ rest) (d.toNat - 48) = (n, rest) := by
    have h1 : Zoo.readDigits ((d :: ds) ++ rest) 0 = (n, rest) := by
      rw [← hds, readDigits_natDigits n rest 0, readDigits_stop rest _ hrest]
      norm_num
    rw [List.cons_append, readDigits_cons, if_pos hd] at h1
    norm_num at h1
    exact h1
  have hopt : Zoo.readDigitsOpt (d :: (ds ++ rest)) = some (n, rest) := by
    have hcons : Zoo.readDigitsOpt (d :: (ds ++ rest)) =
        if d.isDigit = true then some (Zoo.readDigits (ds ++ rest) (d.toNat - 48))
        else none := rfl
    rw [hcons, if_pos hd, hrun]
  unfold Zoo.istReadInt
  rw [hds, List.cons_append]
  rw [skipWs_not_ws d _ (isDigit_not_ws d hd)]
  simp [isDigit_ne_minus d hd, hopt]

/-- One step of skipWs. -/
theorem skipWs_cons (c : Char) (l : List Char) :
    Zoo.skipWs (c :: l) = if Zoo.isWsChar c then Zoo.skipWs l else c :: l := rfl

/-- Leading whitespace before a digit run is dropped and nothing else. -/
theorem skipWs_natDigits (n : Nat) (rest : List Char) :
    Zoo.skipWs (Zoo.natDigits n ++ rest) = Zoo.natDigits n ++ rest := by
  obtain ⟨d, ds, hds⟩ : ∃ d ds, Zoo.natDigits n = d :: ds := by
    cases hnd : Zoo.natDigits n with
    | nil => exact absurd hnd (natDigits_ne_nil n)
    | cons d ds => exact ⟨d, ds, rfl⟩
  have hd : d.isDigit = true := natDigits_isDigit n d (by rw [hds]; simp)
  rw [hds, List.cons_append]
  exact skipWs_not_ws d _ (isDigit_not_ws d hd)

/-- Formatted int extraction on an unfailed stream whose whitespace-stripped
    data starts with the rendered digits of n: yields n and consumes exactly
    those digits. -/
theorem istReadInt_parse (s : List Char) (n : Nat) (rest : List Char)
    (hrest : ∀ c, rest.head? = some c → c.isDigit = false)
    (hs : Zoo.skipWs s = Zoo.natDigits n ++ rest) :
    Zoo.istReadInt ⟨s, false⟩ = ((n : Int), ⟨rest, false⟩) := by
  obtain ⟨d, ds, hds⟩ : ∃ d ds, Zoo.natDigits n = d :: ds := by
    cases hnd : Zoo.natDigits n with
    | nil => exact absurd hnd (natDigits_ne_nil n)
    | cons d ds => exact ⟨d, ds, rfl⟩
  have hd : d.isDigit = true := natDigits_isDigit n d (by rw [hds]; simp)
  have hrun : Zoo.readDigits (ds ++ rest) (d.toNat - 48) = (n, rest) := by
    have h1 : Zoo.readDigits ((d :: ds) ++ rest) 0 = (n, rest) := by
      rw [← hds, readDigits_natDigits n rest 0, readDigits_stop rest _ hrest]
      norm_num
    rw [List.cons_append, readDigits_cons, if_pos hd] at h1
    norm_num at h1
    exact h1
  have hopt : Zoo.readDigitsOpt (d :: (ds ++ rest)) = some (n, rest) := by
    have hcons : Zoo.readDigitsOpt (d :: (ds ++ rest)) =
        if d.isDigit = true then some (Zoo.readDigits (ds ++ rest) (d.toNat - 48))
        else none := rfl
    rw [hcons, if_pos hd, hrun]
  unfold Zoo.istReadInt
  rw [hs, hds, List.cons_append]
  simp [isDigit_ne_minus d hd, hopt]

/-- istream::get on an unfailed, nonempty stream. -/
theorem istGet_cons (c : Char) (l : List Char) :
    Zoo.istGet ⟨c :: l, false⟩ = (some c, ⟨l, false⟩) := rfl

/-- The cell loop parses back exactly the characters save_ascii wrote for
    a row of cells. -/
theorem parseCells_renders (cells : List Cell) (rest : List Char) :
    Zoo.parseCells cells.length
      ⟨cells.map (fun c => if c = Cell.ALIVE then '#' else ' ') ++ rest, false⟩ =
      Except.ok (cells, (⟨rest, false⟩ : Zoo.IStream)) := by
  induction cells generalizing rest with
  | nil => rfl
  | cons c cs ih =>
      cases c with
      | ALIVE => simp [Zoo.parseCells, istGet_cons, ih rest, Except.map]
      | DEAD => simp [Zoo.parseCells, istGet_cons, ih rest, Except.map]

/-- The row loop parses back exactly the block save_ascii wrote for a list
    of equal-width rows. -/
theorem parseRows_renders (w : Nat) (rows : List (List Cell))
    (hw : ∀ r ∈ rows, r.length = w) (rest : List Char) :
    Zoo.parseRows w rows.length
      ⟨(rows.map (fun r =>
          r.map (fun c => if c = Cell.ALIVE then '#' else ' ') ++ ['\n'])).flatten ++ rest,
        false⟩ =
      Except.ok (rows.flatten, (⟨rest, false⟩ : Zoo.IStream)) := by
  induction rows generalizing rest with
  | nil => rfl
  | cons r rs ih =>
      have hr : r.length = w := hw r (by simp)
      have hcells := parseCells_renders r
        ('\n' :: ((rs.map (fun r =>
          r.map (fun c => if c = Cell.ALIVE then '#' else ' ') ++ ['\n'])).flatten ++ rest))
      rw [hr] at hcells
      have hrs := ih (fun r h => hw r (by simp [h])) rest
      simp only [List.map_cons, List.flatten_cons, List.append_assoc,
        List.singleton_append, List.cons_append, List.length_cons]
      simp [Zoo.parseRows, hcells, istGet_cons, hrs, Except.map]

/-- Saving any well-formed grid in the ascii format and loading the file
    back returns the identical grid (the ascii half of claim C8). -/
theorem zoo_ascii_roundtrip (g : Grid) (hwf : g.Wf) :
    Zoo.load_ascii (some (Zoo.save_ascii g)) = Except.ok g := by
  have hneg : ¬ ((g.width : Int) < 0 ∨ (g.height : Int) < 0) := by omega
  unfold Zoo.save_ascii
  simp only [List.append_assoc, List.singleton_append]
  generalize hBdef : ((List.range g.height).map (fun y =>
      (List.range g.width).map (fun x => if g.cellAt x y = Cell.ALIVE then '#' else ' ')
        ++ ['\n'])).flatten = B
  have hrows0 := parseRows_renders g.width
    ((List.range g.height).map (fun y => (List.range g.width).map (fun x => g.cellAt x y)))
    (by
      intro r hr
      obtain ⟨y, _, rfl⟩ := List.mem_map.mp hr
      simp) []
  have hlenrows : ((List.range g.height).map (fun y =>
      (List.range g.width).map (fun x => g.cellAt x y))).length = g.height := by simp
  rw [hlenrows, List.append_nil] at hrows0
  have hmapmap : (((List.range g.height).map (fun y =>
      (List.range g.width).map (fun x => g.cellAt x y))).map
        (fun r => r.map (fun c => if c = Cell.ALIVE then '#' else ' ') ++ ['\n'])).flatten =
      B := by
    rw [← hBdef]
    apply congrArg List.flatten
    rw [List.map_map]
    apply List.map_congr_left
    intro y _
    simp [List.map_map, Function.comp]
  rw [hmapmap] at hrows0
  have hflat : ((List.range g.height).map (fun y =>
      (List.range g.width).map (fun x => g.cellAt x y))).flatten = g.cells :=
    congrArg Grid.cells (Grid.gridOfFn_cellAt_self g hwf)
  rw [hflat] at hrows0
  have h1 : Zoo.istReadInt
      ⟨Zoo.natDigits g.width ++ (' ' :: (Zoo.natDigits g.height ++ ('\n' :: B))), false⟩ =
      ((g.width : Int), ⟨' ' :: (Zoo.natDigits g.height ++ ('\n' :: B)), false⟩) := by
    apply istReadInt_parse
    · intro c hc
      rw [List.head?_cons] at hc
      injection hc with hc
      rw [← hc]
      decide
    · exact skipWs_natDigits _ _
  have h2 : Zoo.istReadInt ⟨' ' :: (Zoo.natDigits g.height ++ ('\n' :: B)), false⟩ =
      ((g.height : Int), ⟨'\n' :: B, false⟩) := by
    apply istReadInt_parse
    · intro c hc
      rw [List.head?_cons] at hc
      injection hc with hc
      rw [← hc]
      decide
    · rw [skipWs_cons, if_pos (show Zoo.isWsChar ' ' = true from by decide)]
      exact skipWs_natDigits _ _
  simp [Zoo.load_ascii, h1, h2, hneg, istGet_cons, hrows0, Except.map]

/-- C8 is a code bug in the binary half: saving the all-DEAD 4×2 grid
    (width*height = 8 bits, so exactly ceil(8/8) = 1 payload byte) and
    loading it back throws the format error, because load_binary demands
    8/8 + 1 = 2 payload bytes; the ascii half of the round-trip works on
    the same grid. -/
theorem C8_roundtrip_bug :
    Zoo.load_binary (some (Zoo.save_binary (Grid.make 4 2))) =
      Except.error GolError.formatError ∧
    Zoo.load_ascii (some (Zoo.save_ascii (Grid.make 4 2))) = Except.ok (Grid.make 4 2) := by
  constructor
  · decide
  · exact zoo_ascii_roundtrip (Grid.make 4 2) (by decide)
